import Mathlib

/-!
Verification of the QPL benchmark harness core
(`sources/tools/benchmarks`, single translation unit).

The development shallowly embeds the C++ code: machine integers become
`Nat`/`Int` with explicit `% 2^w` where overflow matters, C strings become
Lean `String`s (byte-level `tolower`/`toupper` in the C locale acts only on
ASCII letters, which coincides with the per-character maps used here),
fallible code returns `Except`, and the process-global statics become
explicit state passing.
-/

namespace QplBench

/-- C-locale `tolower` on one character: maps A-Z to a-z, leaves every other
character (including non-ASCII bytes) unchanged. -/
def cToLower (c : Char) : Char :=
  if 'A' ≤ c ∧ c ≤ 'Z' then Char.ofNat (c.toNat + 32) else c

/-- C-locale `toupper` on one character: maps a-z to A-Z, leaves every other
character unchanged. -/
def cToUpper (c : Char) : Char :=
  if 'a' ≤ c ∧ c ≤ 'z' then Char.ofNat (c.toNat - 32) else c

/-- `std::transform(str.begin(), str.end(), str.begin(), ::tolower)`. -/
def strLower (s : String) : String := ⟨s.data.map cToLower⟩

/-- `std::transform(str.begin(), str.end(), str.begin(), ::toupper)`. -/
def strUpper (s : String) : String := ⟨s.data.map cToUpper⟩

/-- The `mem_loc_e` enumeration from `cmd_decl.hpp` (declared outside the
given sources; constructors named after the enumerators used in this file). -/
inductive mem_loc_e where
  | cache
  | llc
  | ram
  | pmem
  | cc_ram
  | cc_pmem
deriving DecidableEq

/-- `bench::cmd::get_in_mem`, as a function of the `FLAGS_in_mem` string
(the `static` memoization only caches the result and is dropped).
Throwing `std::runtime_error` is embedded as `Except.error`. -/
def get_in_mem (flag : String) : Except String mem_loc_e :=
  let str := strLower flag
  if str = "cache" then .ok .cache
  else if str = "llc" then .ok .llc
  else if str = "ram" then .ok .ram
  else if str = "pmem" then .ok .pmem
  else .error "invalid input memory location"

/-- `bench::cmd::get_out_mem`, as a function of the `FLAGS_out_mem` string.
Note: in the source the third literal is "cс_ram" with a CYRILLIC ES U+0441
as its second character, and the fourth literal "сс_pmem" spells both of its
first two characters with CYRILLIC ES; the literals below reproduce those
exact code points. -/
def get_out_mem (flag : String) : Except String mem_loc_e :=
  let str := strLower flag
  if str = "ram" then .ok .ram
  else if str = "pmem" then .ok .pmem
  else if str = "cс_ram" then .ok .cc_ram
  else if str = "сс_pmem" then .ok .cc_pmem
  else .error "invalid output memory location"

/-- Default value of `FLAGS_out_mem` in the source: "cс_ram", whose second
character is CYRILLIC ES U+0441, exactly as in `BM_DEFINE_string(out_mem, ...)`. -/
def default_out_mem : String := "cс_ram"

/-- Whitespace as classified by C `isspace` in the default locale. -/
def isCSpace (c : Char) : Bool :=
  c = ' ' ∨ c = '\t' ∨ c = '\n' ∨ c = '\x0b' ∨ c = '\x0c' ∨ c = '\r'

/-- Accumulate a decimal digit run, as the digit loop inside C `atoi`. -/
def atoiLoop : List Char → Int → Int
  | [], acc => acc
  | c :: cs, acc =>
    if c.isDigit then atoiLoop cs (acc * 10 + ((c.toNat : Int) - 48)) else acc

/-- C `atoi`: skip leading whitespace, read an optional sign, then the
longest run of decimal digits; anything else (or no digits) yields 0.
Overflow of the C `int` result is undefined behaviour in C and is not
modelled; callers apply an explicit 32-bit reduction where the result is
stored in a 32-bit variable. -/
def atoi (s : String) : Int :=
  match s.data.dropWhile isCSpace with
  | '-' :: cs => - atoiLoop cs 0
  | '+' :: cs => atoiLoop cs 0
  | cs => atoiLoop cs 0

/-- One hexadecimal digit, or `none`. -/
def hexDigit (c : Char) : Option Nat :=
  if '0' ≤ c ∧ c ≤ '9' then some (c.toNat - 48)
  else if 'a' ≤ c ∧ c ≤ 'f' then some (c.toNat - 87)
  else if 'A' ≤ c ∧ c ≤ 'F' then some (c.toNat - 55)
  else none

/-- Accumulate a hexadecimal digit run. -/
def strtolHexLoop : List Char → Int → Int
  | [], acc => acc
  | c :: cs, acc =>
    match hexDigit c with
    | some d => strtolHexLoop cs (acc * 16 + (d : Int))
    | none => acc

/-- C `strtol(s, NULL, 16)`: skip whitespace, optional sign, optional
`0x`/`0X`, then hexadecimal digits. -/
def strtol16 (s : String) : Int :=
  let body : List Char → Int := fun cs =>
    match cs with
    | '0' :: 'x' :: rest => strtolHexLoop rest 0
    | '0' :: 'X' :: rest => strtolHexLoop rest 0
    | rest => strtolHexLoop rest 0
  match s.data.dropWhile isCSpace with
  | '-' :: cs => - body cs
  | '+' :: cs => body cs
  | cs => body cs

/-- Reduce an `Int` to the value a C cast to `uint32_t` produces. -/
def u32ofInt (i : Int) : Nat := (i % (2 ^ 32 : Int)).toNat

/-- Reduce an `Int` to the value a C cast to `int32_t` produces
(two's complement wrap). -/
def i32ofInt (i : Int) : Int := (i + 2 ^ 31) % 2 ^ 32 - 2 ^ 31

/-- `suf` occurs at the very end of `s`: the embedding of
`str.find(suf, str.size()-n) == str.size()-n` for `n = suf.size()`. -/
def strEndsWith (s suf : String) : Bool :=
  List.isPrefixOf suf.data.reverse s.data.reverse

/-- `bench::cmd::get_block_size`, as a function of the `FLAGS_block_size`
string (the `static` memoization caches only non-negative results and does
not change the value computed for a fixed flag string; it is dropped).
The stored variable is a C `int32_t`, hence the 32-bit reductions. -/
def get_block_size (flag : String) : Except String Int :=
  let str := strUpper flag
  let mult : Int :=
    if (str.data.length > 2 ∧ strEndsWith str "KB")
        ∨ (str.data.length > 1 ∧ strEndsWith str "K") then 1024
    else if (str.data.length > 2 ∧ strEndsWith str "MB")
        ∨ (str.data.length > 1 ∧ strEndsWith str "M") then 1024 * 1024
    else 1
  let block_size := i32ofInt (atoi str)
  if block_size = 0 ∧ str ≠ "0" then .error "invalid block size format"
  else .ok (i32ofInt (block_size * mult))

/-- `(uint64_t)(-1)`: the locality-unknown sentinel reported by
`accfg_device_get_numa_node` under virtualization or with NUMA unconfigured. -/
def numa_unknown : Nat := 2 ^ 64 - 1

/-- `(uint32_t)(-1)`. -/
def u32_all_ones : Nat := 2 ^ 32 - 1

/-- `bench::details::get_num_devices(numa)`, as a function of the dispatcher
topology, embedded as the list of each device's `numa_id()` (a C `uint64_t`,
here a `Nat` below `2^64`).  The `numa` argument is a `uint32_t`; in
`device.numa_id() == numa` C++ zero-extends it to 64 bits, so the embedding
takes `numa : Nat` to be that zero-extended value. -/
def get_num_devices (devices : List Nat) (numa : Nat) : Nat :=
  devices.foldl
    (fun counter d =>
      if d = numa then counter + 1
      else if d ≠ numa ∧ d = numa_unknown then counter + 1
      else counter) 0

/-- Drop `pre` from the front of `tok`, or `none` when `pre` does not start
`tok`. -/
def dropPre : List Char → List Char → Option (List Char)
  | [], cs => some cs
  | _ :: _, [] => none
  | p :: ps, c :: cs => if c = p then dropPre ps cs else none

/-- The token shape that selects flag `name` when it carries a value:
`--name=`. -/
def flagPre (name : String) : List Char := '-' :: '-' :: (name.data ++ ['='])

/-- Modelled from the spec: the underlying framework's flag matcher
(`benchmark::ParseStringFlag` / `ParseInt32Flag` / `ParseDoubleFlag` and the
`--name=value` case of `ParseBoolFlag`, none of which are in the given
sources).  A token matches flag `name` exactly when it has the shape
`--name=value`; the stored text is `value`. -/
def parseFlagValue (tok : String) (name : String) : Option String :=
  (dropPre (flagPre name) tok.data).map (fun cs => ⟨cs⟩)

/-- Modelled from the spec: the truthiness test the framework applies to the
text of a boolean flag given as `--name=value` (a bare `--name` is true). -/
def parseBoolVal (v : String) : Bool :=
  match v.data with
  | [] => true
  | c :: _ => c = 't' ∨ c = 'T' ∨ c = 'y' ∨ c = 'Y' ∨ c = '1'

/-- Modelled from the spec: `benchmark::ParseBoolFlag` — a bare `--name`
token sets the flag to true, `--name=value` parses `value`. -/
def parseBoolFlag (tok : String) (name : String) : Option Bool :=
  if tok = "--" ++ name then some true
  else (parseFlagValue tok name).map parseBoolVal

/-- The harness flag store (`BM_DEFINE_*` in `bench::cmd`), with the
source's default values.  `canned_part` is a C `double`; floating-point
values are outside the embedding, so its unparsed text is stored instead —
no claim depends on its numeric value.  The `out_mem` default reproduces the
source's CYRILLIC ES in "cс_ram". -/
structure Flags where
  dataset : String := ""
  block_size : String := "-1"
  threads : Int := 0
  node : Int := -1
  full_time : Bool := false
  queue_size : Int := 0
  batch_size : Int := 0
  no_hw : Bool := false
  in_mem : String := "llc"
  out_mem : String := "cс_ram"
  canned_part : String := "-1"
  canned_regen : Bool := false
deriving DecidableEq

/-- One pass of the `if(ParseStringFlag(...) || ...)` chain of
`bench::cmd::parse_local` over a single token, in the source's matcher
order; `some` exactly when one matcher claimed the token, returning the
store update the match performs.  Which matcher claims a token depends only
on the token, never on the current store, exactly as in the source.
`Int32` parsing is modelled with `atoi` reduced to 32 bits (modelled from
the spec; the framework's parser is not in the given sources). -/
def matchToken (tok : String) : Option (Flags → Flags) :=
  (parseFlagValue tok "dataset").map (fun v fl => { fl with dataset := v }) <|>
  (parseFlagValue tok "block_size").map (fun v fl => { fl with block_size := v }) <|>
  (parseFlagValue tok "threads").map (fun v fl => { fl with threads := i32ofInt (atoi v) }) <|>
  (parseFlagValue tok "node").map (fun v fl => { fl with node := i32ofInt (atoi v) }) <|>
  (parseBoolFlag tok "full_time").map (fun b fl => { fl with full_time := b }) <|>
  (parseFlagValue tok "queue_size").map (fun v fl => { fl with queue_size := i32ofInt (atoi v) }) <|>
  (parseFlagValue tok "batch_size").map (fun v fl => { fl with batch_size := i32ofInt (atoi v) }) <|>
  (parseBoolFlag tok "no_hw").map (fun b fl => { fl with no_hw := b }) <|>
  (parseFlagValue tok "in_mem").map (fun v fl => { fl with in_mem := v }) <|>
  (parseFlagValue tok "out_mem").map (fun v fl => { fl with out_mem := v }) <|>
  (parseFlagValue tok "canned_part").map (fun v fl => { fl with canned_part := v }) <|>
  (parseBoolFlag tok "canned_regen").map (fun b fl => { fl with canned_regen := b })

/-- The chain applied to the current store: the matched flag's parsed value
is stored, every other field is untouched. -/
def tryParseToken (fl : Flags) (tok : String) : Option Flags :=
  (matchToken tok).map (fun f => f fl)

/-- `bench::cmd::parse_local` on the tokens after `argv[0]`.  The C loop
scans left to right; a recognized token is spliced out in place (elements
shift left, `argc` drops, and the index re-examines the same position), an
unrecognized token is skipped (a `--help` token additionally prints the
usage text — output is not modelled — and is NOT spliced out).  The
in-place splice is therefore: remove the token and continue with the rest,
or keep it in front of whatever the rest leaves behind. -/
def parse_local (fl : Flags) : List String → Flags × List String
  | [] => (fl, [])
  | tok :: rest =>
    match tryParseToken fl tok with
    | some fl2 => parse_local fl2 rest
    | none =>
      let pr := parse_local fl rest
      (pr.1, tok :: pr.2)

/-- `parse_local` on a full `argv`: the loop starts at index 1, so
`argv[0]` is never examined and never moved. -/
def parse_local_argv (fl : Flags) (argv : List String) : Flags × List String :=
  match argv with
  | [] => (fl, [])
  | prog :: rest =>
    let pr := parse_local fl rest
    (pr.1, prog :: pr.2)

/-- Strip leading and trailing C whitespace: the `trim` helper from
`utility.hpp` (modelled from the spec: values are "trimmed of surrounding
whitespace"; the helper itself is not in the given sources). -/
def trimChars (cs : List Char) : List Char :=
  ((cs.dropWhile isCSpace).reverse.dropWhile isCSpace).reverse

/-- `trim` on a `String`. -/
def trimStr (s : String) : String := ⟨trimChars s.data⟩

/-- Split a line at its first `':'`: `line.find(':')` plus the two
`substr` calls.  `none` when there is no colon. -/
def splitAtColon : List Char → Option (List Char × List Char)
  | [] => none
  | c :: cs =>
    if c = ':' then some ([], cs)
    else (splitAtColon cs).map (fun kv => (c :: kv.1, kv.2))

/-- The per-line key/value extraction of the `/proc/cpuinfo` loop: an empty
line or a line without a colon is skipped; otherwise the text before the
first colon and the text after it, both trimmed. -/
def splitLine (line : String) : Option (String × String) :=
  if line.data = [] then none
  else (splitAtColon line.data).map (fun kv => (trimStr ⟨kv.1⟩, trimStr ⟨kv.2⟩))

/-- The accelerator sub-record of `extended_info_t` (declared in
`utility.hpp`, outside the given sources; fields as used in this file). -/
structure accelerators_t where
  total_devices : Nat := 0
  socket : List Nat := []
deriving DecidableEq

/-- `extended_info_t` (declared in `utility.hpp`, outside the given
sources; fields and zero defaults as used in this file; the counter fields
are C `uint32_t`, embedded as `Nat` with explicit 32-bit reductions at the
assignments that can wrap). -/
structure extended_info_t where
  host_name : String := ""
  kernel : String := ""
  cpu_model_name : String := ""
  cpu_model : Nat := 0
  cpu_microcode : Nat := 0
  cpu_stepping : Nat := 0
  cpu_logical_cores : Nat := 0
  cpu_sockets : Nat := 0
  cpu_physical_per_socket : Nat := 0
  cpu_physical_cores : Nat := 0
  cpu_physical_per_cluster : Nat := 0
  accelerators : accelerators_t := {}
deriving DecidableEq

/-- The body of the `while (std::getline(...))` loop in `get_sys_info`,
for one line of the descriptor stream. -/
def parse_cpuinfo_line (info : extended_info_t) (line : String) : extended_info_t :=
  match splitLine line with
  | none => info
  | some (key, val) =>
    if key = "processor" then
      { info with cpu_logical_cores := info.cpu_logical_cores + 1 }
    else if key = "physical id" then
      { info with
        cpu_sockets := max info.cpu_sockets ((u32ofInt (atoi val) + 1) % 2 ^ 32) }
    else if info.cpu_physical_per_socket = 0 ∧ key = "cpu cores" then
      { info with
        cpu_physical_per_socket := max info.cpu_physical_per_socket (u32ofInt (atoi val)) }
    else if info.cpu_model_name = "" ∧ key = "model name" then
      { info with cpu_model_name := val }
    else if info.cpu_model = 0 ∧ key = "model" then
      { info with cpu_model := u32ofInt (atoi val) }
    else if info.cpu_microcode = 0 ∧ key = "microcode" then
      { info with cpu_microcode := u32ofInt (strtol16 val) }
    else if info.cpu_stepping = 0 ∧ key = "stepping" then
      { info with cpu_stepping := u32ofInt (atoi val) }
    else info

/-- The whole descriptor-stream loop, from the zero-initialized snapshot. -/
def parse_cpuinfo (lines : List String) : extended_info_t :=
  lines.foldl parse_cpuinfo_line {}

/-- The environment the system-info build reads: `uname` identity, the
`/proc/cpuinfo` lines, and the dispatcher topology (each device's
`numa_id()`). -/
structure SysEnv where
  nodename : String
  release : String
  cpuinfo : List String
  devices : List Nat

/-- `constexpr std::uint32_t clusters_per_socket = 4`. -/
def clusters_per_socket : Nat := 4

/-- The single build pass of `get_sys_info` (the body of the
`if(!is_setup)` block): identity, the descriptor-stream loop, the derived
core counts, and one Enumerator call per socket index.  The `printf`
summary is output only and is not modelled. -/
def build_sys_info (env : SysEnv) : extended_info_t :=
  let info := parse_cpuinfo env.cpuinfo
  let info := { info with host_name := env.nodename, kernel := env.release }
  let info := { info with
    cpu_physical_cores := info.cpu_physical_per_socket * info.cpu_sockets % 2 ^ 32,
    cpu_physical_per_cluster := info.cpu_physical_per_socket / clusters_per_socket }
  let counts := (List.range info.cpu_sockets).map (get_num_devices env.devices)
  { info with accelerators :=
      { total_devices := counts.foldl (· + ·) 0, socket := counts } }

/-- The static state of `get_sys_info`: the snapshot, the `is_setup` flag,
and a count of executions of the build path (the build-counter the spec
makes observable in tests). -/
structure SysState where
  info : extended_info_t := {}
  is_setup : Bool := false
  builds : Nat := 0
deriving DecidableEq

/-- The static state at process start. -/
def initSysState : SysState := {}

/-- `bench::details::get_sys_info`, with the function-local statics made
explicit state: under the mutex (serialized calls are the embedded view),
the build runs only when `is_setup` is still false, after which the flag is
set; the returned reference is the stored snapshot either way. -/
def get_sys_info (env : SysEnv) (s : SysState) : SysState × extended_info_t :=
  if s.is_setup then (s, s.info)
  else
    let info := build_sys_info env
    ({ info := info, is_setup := true, builds := s.builds + 1 }, info)

/-- `constexpr const uint64_t poly = 0x04C11DB700000000`. -/
def poly : Nat := 0x04C11DB700000000

/-- `QPL_STS_OK`: the zero success status of the QPL C API. -/
def QPL_STS_OK : Nat := 0

/-- The QPL operation selector; only `qpl_op_crc64` occurs in this file. -/
inductive qpl_operation where
  | crc64
deriving DecidableEq

/-- The fields of `qpl_job` that `init_hw` assigns before submitting
(pointers are not modelled; `available_in` is the byte count of the
in-memory input buffer, here `sizeof(int) = 4` bytes of `&data`). -/
structure qpl_job where
  available_in : Nat
  op : qpl_operation
  crc64_poly : Nat
deriving DecidableEq

/-- Modelled from the spec: the statuses the five QPL API calls used by the
readiness handshake return (`qpl_get_job_size`, `qpl_init_job`,
`qpl_submit_job`, `qpl_wait_job`, `qpl_fini_job` are part of the library,
not of the given sources; each is an opaque step that either succeeds with
`QPL_STS_OK` or fails with a non-zero status). -/
structure HwEnv where
  size_status : Nat
  init_status : Nat
  submit_status : Nat
  wait_status : Nat
  fini_status : Nat
deriving DecidableEq

/-- Every step of the handshake reports success. -/
def hwAllOk (env : HwEnv) : Bool :=
  env.size_status = QPL_STS_OK ∧ env.init_status = QPL_STS_OK
    ∧ env.submit_status = QPL_STS_OK ∧ env.wait_status = QPL_STS_OK
    ∧ env.fini_status = QPL_STS_OK

/-- The job descriptor `init_hw` submits: a CRC64 checksum over the 4-byte
in-memory buffer, with the file's polynomial constant. -/
def selfTestJob : qpl_job :=
  { available_in := 4, op := qpl_operation.crc64, crc64_poly := poly }

/-- `bench::details::init_hw`: the hardware readiness handshake.  Throwing
`std::runtime_error` is embedded as `Except.error` with the source's
message; on success the source returns `true`, and the embedding also
returns the submitted job descriptor so that the statement can speak about
what was submitted.  The job-buffer allocation (`new uint8_t[size]`) is
memory management and is not observable here. -/
def init_hw (env : HwEnv) : Except String (Bool × qpl_job) :=
  if env.size_status ≠ QPL_STS_OK then .error "hw init failed in qpl_get_job_size"
  else if env.init_status ≠ QPL_STS_OK then .error "hw init failed in qpl_init_job"
  else
    let job := selfTestJob
    if env.submit_status ≠ QPL_STS_OK then .error "hw init failed in qpl_submit_job"
    else if env.wait_status ≠ QPL_STS_OK then .error "hw init failed in qpl_wait_job"
    else if env.fini_status ≠ QPL_STS_OK then .error "hw init failed in qpl_fini_job"
    else .ok (true, job)

/-- The `for(auto &reg : registry) reg();` drain: invoke every callback of
the process-wide registry in order on the ambient state.  The registry
itself is a value the drain only reads — nothing is cleared or removed. -/
def drain_registry {σ : Type _} (registry : List (σ → σ)) (s : σ) : σ :=
  registry.foldl (fun s f => f s) s

/-- A callback that records its registration index `i` in a trace, the
observable side effect the spec's registry property counts. -/
def traceCallback (i : Nat) : List Nat → List Nat := fun t => t ++ [i]

/-- The observable steps of `main`, in the order they run. -/
inductive MainEvent where
  | spliceArgs
  | frameworkInitialize
  | checkArgs
  | sysInfo
  | hwInit
  | callback (i : Nat)
  | runBenchmarks
  | shutdownStep
deriving DecidableEq

/-- Modelled from the spec: `::benchmark::ReportUnrecognizedArguments`
(library code, not in the given sources) reports an error exactly when
arguments other than `argv[0]` remain after the framework's own parsing. -/
def reportUnrecognizedArguments (argv : List String) : Bool :=
  decide (argv.length > 1)

/-- The environment `main` runs in: the raw argument list, the framework's
own argument consumption (`::benchmark::Initialize`, modelled from the spec
as an opaque transformation of the remaining argument list), the
system-info environment, the QPL call statuses, and the registered
callbacks (by registration index). -/
structure MainEnv where
  argv : List String
  frameworkInitialize : List String → List String
  sys : SysEnv
  hw : HwEnv
  registry : List Nat

/-- `main`, as a function of its environment, returning the trace of
observable steps together with the process exit code; an uncaught
`std::runtime_error` from `init_hw` terminates the process and is embedded
as `Except.error`. -/
def main_run (env : MainEnv) : Except String (List MainEvent × Int) :=
  let pr := parse_local_argv {} env.argv
  let argvAfterInit := env.frameworkInitialize pr.2
  let ev0 := [MainEvent.spliceArgs, MainEvent.frameworkInitialize, MainEvent.checkArgs]
  if reportUnrecognizedArguments argvAfterInit then .ok (ev0, 1)
  else
    let sys := get_sys_info env.sys initSysState
    let ev1 := ev0 ++ [MainEvent.sysInfo]
    let hwStep : Except String (List MainEvent) :=
      if pr.1.no_hw then .ok ev1
      else
        match init_hw env.hw with
        | .error m => .error m
        | .ok _ => .ok (ev1 ++ [MainEvent.hwInit])
    match sys, hwStep with
    | _, .error m => .error m
    | _, .ok ev2 =>
      let ev3 := drain_registry (env.registry.map (fun i => fun t => t ++ [MainEvent.callback i])) ev2
      .ok (ev3 ++ [MainEvent.runBenchmarks, MainEvent.shutdownStep], 0)

/-- The values a stream of key/value lines carries for one key, in stream
order (specification helper for the descriptor-stream rules). -/
def keyVals (key : String) (lines : List String) : List String :=
  lines.filterMap (fun l =>
    match splitLine l with
    | some kv => if kv.1 = key then some kv.2 else none
    | none => none)

/-- First non-zero element of a list, 0 when there is none
(specification helper). -/
def firstNonzero : List Nat → Nat
  | [] => 0
  | x :: xs => if x ≠ 0 then x else firstNonzero xs

/-- First non-empty string of a list, "" when there is none
(specification helper). -/
def firstNonempty : List String → String
  | [] => ""
  | x :: xs => if x ≠ "" then x else firstNonempty xs

--
-- Theorems
--

lemma init_hw_of_allOk (env : HwEnv) (h : hwAllOk env = true) :
    init_hw env = .ok (true, selfTestJob) := by
  simp only [hwAllOk, QPL_STS_OK, decide_eq_true_eq] at h
  obtain ⟨h1, h2, h3, h4, h5⟩ := h
  simp [init_hw, QPL_STS_OK, h1, h2, h3, h4, h5]

lemma init_hw_of_failure (env : HwEnv) (h : hwAllOk env = false) :
    ∃ m, init_hw env = .error m := by
  simp only [hwAllOk, QPL_STS_OK, decide_eq_false_iff_not, not_and_or] at h
  by_cases h1 : env.size_status = 0 <;>
    by_cases h2 : env.init_status = 0 <;>
      by_cases h3 : env.submit_status = 0 <;>
        by_cases h4 : env.wait_status = 0 <;>
          by_cases h5 : env.fini_status = 0 <;>
            simp_all [init_hw, QPL_STS_OK]

/-- C6: the hardware readiness handshake raises a fatal initialization
error if and only if any of its five steps (job-size query, job init, job
submit, job wait, job finalize) returns a non-success status, with no retry
and no downgrade; when every step succeeds it returns success, having
submitted a checksum (CRC64) operation over a 4-byte in-memory buffer. -/
theorem init_hw_handshake_c6 (env : HwEnv) :
    (init_hw env = .ok (true, selfTestJob) ↔ hwAllOk env = true)
    ∧ ((∃ m, init_hw env = .error m) ↔ hwAllOk env = false)
    ∧ selfTestJob.available_in = 4
    ∧ selfTestJob.op = qpl_operation.crc64
    ∧ selfTestJob.crc64_poly = poly := by
  refine ⟨⟨fun h => ?_, init_hw_of_allOk env⟩, ⟨fun ⟨m, hm⟩ => ?_, init_hw_of_failure env⟩,
    rfl, rfl, rfl⟩
  · by_contra hb
    obtain ⟨m, hm⟩ := init_hw_of_failure env (by simpa using hb)
    rw [h] at hm
    exact Except.noConfusion hm
  · by_contra hb
    have := init_hw_of_allOk env (by simpa using hb)
    rw [this] at hm
    exact Except.noConfusion hm

/-- C1: for every string whose lowercase form is one of "cache", "llc",
"ram", "pmem", `get_in_mem` returns the matching enumerator, and any other
string raises; `get_out_mem` accepts "ram" and "pmem", but the ASCII
strings "cc_ram" and "cc_pmem" RAISE the fatal configuration error, because
the source literals spell them with CYRILLIC ES (U+0441) — only the
homoglyph spellings are accepted (evaluated here at the failing inputs). -/
theorem mem_accessors_c1 :
    get_in_mem "cache" = .ok .cache
    ∧ get_in_mem "CACHE" = .ok .cache
    ∧ get_in_mem "llc" = .ok .llc
    ∧ get_in_mem "LLc" = .ok .llc
    ∧ get_in_mem "ram" = .ok .ram
    ∧ get_in_mem "pmem" = .ok .pmem
    ∧ get_in_mem "dram" = .error "invalid input memory location"
    ∧ get_in_mem "" = .error "invalid input memory location"
    ∧ get_out_mem "ram" = .ok .ram
    ∧ get_out_mem "RAM" = .ok .ram
    ∧ get_out_mem "pmem" = .ok .pmem
    ∧ get_out_mem "cc_ram" = .error "invalid output memory location"
    ∧ get_out_mem "CC_RAM" = .error "invalid output memory location"
    ∧ get_out_mem "cc_pmem" = .error "invalid output memory location"
    ∧ get_out_mem "cс_ram" = .ok .cc_ram
    ∧ get_out_mem "сс_pmem" = .ok .cc_pmem
    ∧ default_out_mem ≠ "cc_ram" :=
  ⟨rfl, rfl, rfl, rfl, rfl, rfl, rfl, rfl, rfl, rfl, rfl, rfl, rfl, rfl, rfl, rfl,
    by decide⟩

lemma drain_registry_map_append {α : Type _} (f : Nat → α) (ids : List Nat) (t : List α) :
    drain_registry (ids.map (fun i => fun tr => tr ++ [f i])) t = t ++ ids.map f := by
  induction ids generalizing t with
  | nil => simp [drain_registry]
  | cons i is ih => simp [drain_registry, List.map_cons, List.foldl_cons] at ih ⊢; simp [ih]

/-- C9: one drain of the registry invokes each of the N registered
callbacks exactly once, in registration order (the trace a drain appends is
exactly the registration-order index list); the registry value itself is
only read, so a second drain repeats every side effect a second time. -/
theorem registry_drain_c9 (ids : List Nat) (t : List Nat) :
    drain_registry (ids.map traceCallback) t = t ++ ids
    ∧ drain_registry (ids.map traceCallback) [] = ids
    ∧ drain_registry (ids.map traceCallback)
        (drain_registry (ids.map traceCallback) []) = ids ++ ids := by
  have hgen : ∀ t0 : List Nat,
      drain_registry (ids.map traceCallback) t0 = t0 ++ ids := by
    intro t0
    have := drain_registry_map_append (fun i => i) ids t0
    simpa [traceCallback] using this
  exact ⟨hgen t, by simpa using hgen [], by simp [hgen]⟩

/-- C5: the system-info build runs at most once: starting from a
not-yet-built state, the first call performs the build (the build counter
increases by one), sets the already-built flag, and returns the built
snapshot; calling again on the resulting state changes nothing and returns
the identical snapshot, and in general every call on an already-built state
returns the stored snapshot without entering the build path. -/
theorem get_sys_info_c5 (env : SysEnv) (s0 : SysState) (h : s0.is_setup = false) :
    (get_sys_info env s0).1.builds = s0.builds + 1
    ∧ (get_sys_info env s0).1.is_setup = true
    ∧ (get_sys_info env s0).2 = build_sys_info env
    ∧ get_sys_info env (get_sys_info env s0).1
        = ((get_sys_info env s0).1, (get_sys_info env s0).2)
    ∧ ∀ s : SysState, s.is_setup = true → get_sys_info env s = (s, s.info) := by
  refine ⟨?_, ?_, ?_, ?_, ?_⟩ <;> simp [get_sys_info, h]
  intro s hs
  simp [get_sys_info, hs]

/-- Witness for C5 at a concrete environment and the process-start state. -/
theorem get_sys_info_c5_witness :
    (get_sys_info ⟨"host", "6.2.0", [], []⟩ initSysState).1.builds
        = initSysState.builds + 1
    ∧ (get_sys_info ⟨"host", "6.2.0", [], []⟩ initSysState).1.is_setup = true
    ∧ (get_sys_info ⟨"host", "6.2.0", [], []⟩ initSysState).2
        = build_sys_info ⟨"host", "6.2.0", [], []⟩
    ∧ get_sys_info ⟨"host", "6.2.0", [], []⟩
          (get_sys_info ⟨"host", "6.2.0", [], []⟩ initSysState).1
        = ((get_sys_info ⟨"host", "6.2.0", [], []⟩ initSysState).1,
            (get_sys_info ⟨"host", "6.2.0", [], []⟩ initSysState).2)
    ∧ ∀ s : SysState, s.is_setup = true →
        get_sys_info ⟨"host", "6.2.0", [], []⟩ s = (s, s.info) :=
  get_sys_info_c5 ⟨"host", "6.2.0", [], []⟩ initSysState rfl

lemma get_num_devices_foldl (numa : Nat) (devices : List Nat) (acc : Nat) :
    devices.foldl
      (fun counter d =>
        if d = numa then counter + 1
        else if d ≠ numa ∧ d = numa_unknown then counter + 1
        else counter) acc
    = acc + (devices.filter (fun d => d = numa)).length
        + (devices.filter (fun d => d ≠ numa ∧ d = numa_unknown)).length := by
  induction devices generalizing acc with
  | nil => simp
  | cons d ds ih =>
    simp only [List.foldl_cons, List.filter_cons]
    by_cases hd : d = numa
    · subst hd
      simp [ih]
      omega
    · by_cases hu : d = numa_unknown
      · subst hu
        simp [hd, ih]
        omega
      · simp [hd, hu, ih]

/-- C2: for a non-sentinel NUMA argument (any value a `uint32_t` other than
all-ones can hold) and a fixed device topology, `get_num_devices` counts
the devices whose locality equals the node plus the devices whose locality
is the unknown sentinel; in particular localities {0, 0, 1, unknown,
unknown} give 4 for node 0 and 3 for node 1.  The embedding is a pure
function, so the count is its only effect. -/
theorem get_num_devices_c2 (devices : List Nat) (numa : Nat)
    (h32 : numa < 2 ^ 32) (_hns : numa ≠ u32_all_ones) :
    get_num_devices devices numa
      = (devices.filter (fun d => d = numa)).length
        + (devices.filter (fun d => d = numa_unknown)).length
    ∧ get_num_devices [0, 0, 1, numa_unknown, numa_unknown] 0 = 4
    ∧ get_num_devices [0, 0, 1, numa_unknown, numa_unknown] 1 = 3 := by
  refine ⟨?_, by decide, by decide⟩
  have hlt : numa < numa_unknown := by
    have : (2 ^ 32 : Nat) < 2 ^ 64 - 1 := by norm_num
    exact lt_of_lt_of_le h32 (by unfold numa_unknown; omega)
  rw [get_num_devices, get_num_devices_foldl]
  have : (devices.filter (fun d => d ≠ numa ∧ d = numa_unknown))
      = devices.filter (fun d => d = numa_unknown) := by
    apply List.filter_congr
    intro d _
    by_cases hdu : d = numa_unknown
    · simp [hdu]
      omega
    · simp [hdu]
  rw [this]
  omega

/-- Witness for C2 at the synthetic topology {0, 0, 1, unknown, unknown}
and node 0. -/
theorem get_num_devices_c2_witness :
    get_num_devices [0, 0, 1, numa_unknown, numa_unknown] 0
      = (([0, 0, 1, numa_unknown, numa_unknown].filter (fun d => d = 0)).length
        + (([0, 0, 1, numa_unknown, numa_unknown].filter
            (fun d => d = numa_unknown)).length))
    ∧ get_num_devices [0, 0, 1, numa_unknown, numa_unknown] 0 = 4
    ∧ get_num_devices [0, 0, 1, numa_unknown, numa_unknown] 1 = 3 :=
  get_num_devices_c2 [0, 0, 1, numa_unknown, numa_unknown] 0 (by norm_num)
    (by unfold u32_all_ones; norm_num)

/-- C10: when the node argument is the 32-bit all-ones sentinel, C++
compares each 64-bit locality against its zero-extension `2^32 - 1`, so for
a topology whose concrete localities are all different from `2^32 - 1` the
direct equality branch never fires, and exactly the devices whose locality
is the 64-bit unknown sentinel are counted. -/
theorem get_num_devices_c10 (devices : List Nat)
    (h : ∀ d ∈ devices, d ≠ numa_unknown → d ≠ u32_all_ones) :
    get_num_devices devices u32_all_ones
      = (devices.filter (fun d => d = numa_unknown)).length := by
  rw [get_num_devices, get_num_devices_foldl]
  have h1 : devices.filter (fun d => d = u32_all_ones) = [] := by
    rw [List.filter_eq_nil_iff]
    intro d hd
    by_cases hdu : d = numa_unknown
    · simp [hdu]
      unfold numa_unknown u32_all_ones
      omega
    · simpa using h d hd hdu
  have h2 : (devices.filter (fun d => d ≠ u32_all_ones ∧ d = numa_unknown))
      = devices.filter (fun d => d = numa_unknown) := by
    apply List.filter_congr
    intro d _
    by_cases hdu : d = numa_unknown
    · simp [hdu]
      unfold numa_unknown u32_all_ones
      omega
    · simp [hdu]
  rw [h1, h2]
  simp

/-- Witness for C10 at the synthetic topology {0, 0, 1, unknown, unknown}:
only the two unknown-locality devices are counted. -/
theorem get_num_devices_c10_witness :
    get_num_devices [0, 0, 1, numa_unknown, numa_unknown] u32_all_ones
      = ([0, 0, 1, numa_unknown, numa_unknown].filter
          (fun d => d = numa_unknown)).length :=
  get_num_devices_c10 [0, 0, 1, numa_unknown, numa_unknown] (by decide)

lemma cToUpper_eq_digit_zero {c : Char} (h : cToUpper c = '0') : c = '0' := by
  unfold cToUpper at h
  split_ifs at h with hc
  · exfalso
    obtain ⟨h1, h2⟩ := hc
    have hv1 : 97 ≤ c.toNat := h1
    have hv2 : c.toNat ≤ 122 := h2
    have hvalid : Nat.isValidChar (c.toNat - 32) := by
      left
      omega
    have h4 : (Char.ofNat (c.toNat - 32)).toNat = 48 := by rw [h]; rfl
    have h5 : (Char.ofNat (c.toNat - 32)).toNat = c.toNat - 32 := by
      unfold Char.ofNat
      rw [dif_pos hvalid]; rfl
    rw [h5] at h4
    omega
  · exact h

lemma strUpper_eq_zero {s : String} (h : strUpper s = "0") : s = "0" := by
  rcases s with ⟨l⟩
  have hd : l.map cToUpper = ['0'] := congrArg String.data h
  rcases l with _ | ⟨c, cs⟩
  · simp at hd
  · simp only [List.map_cons, List.cons.injEq, List.map_eq_nil_iff] at hd
    obtain ⟨hc, hcs⟩ := hd
    rw [cToUpper_eq_digit_zero hc, hcs]

/-- C3: `get_block_size` reads the stored string as a numeric prefix times
a suffix multiplier — "K"/"KB" gives 1024, "M"/"MB" gives 1024&#42;1024, no
suffix gives 1, case-insensitively — with `block_size("4K") = 4096`,
`block_size("2MB") = 2097152`, `block_size("0") = 0` and the unset sentinel
`block_size("-1")` negative; every string whose numeric prefix parses to 0
but which is not literally "0" raises the configuration error. -/
theorem get_block_size_c3 (s : String)
    (h0 : atoi (strUpper s) = 0) (h1 : s ≠ "0") :
    get_block_size "4K" = .ok 4096
    ∧ get_block_size "2MB" = .ok 2097152
    ∧ get_block_size "4k" = .ok 4096
    ∧ get_block_size "2mb" = .ok 2097152
    ∧ get_block_size "1KB" = .ok 1024
    ∧ get_block_size "3M" = .ok 3145728
    ∧ get_block_size "5" = .ok 5
    ∧ get_block_size "0" = .ok 0
    ∧ get_block_size "-1" = .ok (-1)
    ∧ (-1 : Int) < 0
    ∧ get_block_size s = .error "invalid block size format" := by
  refine ⟨rfl, rfl, rfl, rfl, rfl, rfl, rfl, rfl, rfl, by norm_num, ?_⟩
  have hz : strUpper s ≠ "0" := fun hq => h1 (strUpper_eq_zero hq)
  simp [get_block_size, h0, i32ofInt, hz]

/-- Witness for C3 at the non-numeric string "abc". -/
theorem get_block_size_c3_witness :
    get_block_size "4K" = .ok 4096
    ∧ get_block_size "2MB" = .ok 2097152
    ∧ get_block_size "4k" = .ok 4096
    ∧ get_block_size "2mb" = .ok 2097152
    ∧ get_block_size "1KB" = .ok 1024
    ∧ get_block_size "3M" = .ok 3145728
    ∧ get_block_size "5" = .ok 5
    ∧ get_block_size "0" = .ok 0
    ∧ get_block_size "-1" = .ok (-1)
    ∧ (-1 : Int) < 0
    ∧ get_block_size "abc" = .error "invalid block size format" :=
  get_block_size_c3 "abc" rfl (by decide)

lemma keyVals_cons (key l : String) (ls : List String) :
    keyVals key (l :: ls)
      = (match splitLine l with
         | some kv => if kv.1 = key then kv.2 :: keyVals key ls else keyVals key ls
         | none => keyVals key ls) := by
  unfold keyVals
  rw [List.filterMap_cons]
  rcases splitLine l with _ | ⟨k, v⟩
  · rfl
  · by_cases hk : k = key <;> simp [hk]

lemma cpuinfo_logical_cores (lines : List String) : ∀ info : extended_info_t,
    (lines.foldl parse_cpuinfo_line info).cpu_logical_cores
      = info.cpu_logical_cores + (keyVals "processor" lines).length := by
  induction lines with
  | nil =>
    intro info
    simp [keyVals]
  | cons l ls ih =>
    intro info
    rw [List.foldl_cons, ih, keyVals_cons]
    rcases hsl : splitLine l with _ | ⟨k, v⟩
    · simp [parse_cpuinfo_line, hsl]
    · simp only
      by_cases hk : k = "processor"
      · subst hk
        simp [parse_cpuinfo_line, hsl]
        omega
      · simp only [parse_cpuinfo_line, hsl, hk, if_neg hk]
        split_ifs <;> simp_all

lemma cpuinfo_sockets (lines : List String) : ∀ info : extended_info_t,
    (lines.foldl parse_cpuinfo_line info).cpu_sockets
      = (keyVals "physical id" lines).foldl
          (fun m v => max m ((u32ofInt (atoi v) + 1) % 2 ^ 32)) info.cpu_sockets := by
  induction lines with
  | nil =>
    intro info
    simp [keyVals]
  | cons l ls ih =>
    intro info
    rw [List.foldl_cons, ih, keyVals_cons]
    rcases hsl : splitLine l with _ | ⟨k, v⟩
    · simp [parse_cpuinfo_line, hsl]
    · simp only
      by_cases hk : k = "physical id"
      · subst hk
        simp [parse_cpuinfo_line, hsl]
      · simp only [parse_cpuinfo_line, hsl, hk, if_neg hk]
        split_ifs <;> simp_all

lemma cpuinfo_physical_per_socket (lines : List String) : ∀ info : extended_info_t,
    (lines.foldl parse_cpuinfo_line info).cpu_physical_per_socket
      = if info.cpu_physical_per_socket = 0
        then firstNonzero ((keyVals "cpu cores" lines).map (fun v => u32ofInt (atoi v)))
        else info.cpu_physical_per_socket := by
  induction lines with
  | nil =>
    intro info
    simp only [List.foldl_nil, keyVals, List.filterMap_nil, List.map_nil, firstNonzero]
    split_ifs with h <;> omega
  | cons l ls ih =>
    intro info
    rw [List.foldl_cons, ih, keyVals_cons]
    rcases hsl : splitLine l with _ | ⟨k, v⟩
    · simp [parse_cpuinfo_line, hsl]
    · simp only
      by_cases hk : k = "cpu cores"
      · subst hk
        simp only [parse_cpuinfo_line, hsl]
        by_cases hz : info.cpu_physical_per_socket = 0 <;>
          by_cases hv : u32ofInt (atoi v) = 0 <;>
            simp [hz, hv, firstNonzero]
      · simp only [parse_cpuinfo_line, hsl, hk, if_neg hk]
        split_ifs <;> simp_all

lemma cpuinfo_model_name (lines : List String) : ∀ info : extended_info_t,
    (lines.foldl parse_cpuinfo_line info).cpu_model_name
      = if info.cpu_model_name = ""
        then firstNonempty (keyVals "model name" lines)
        else info.cpu_model_name := by
  induction lines with
  | nil =>
    intro info
    simp only [List.foldl_nil, keyVals, List.filterMap_nil, firstNonempty]
    split_ifs with h
    · exact h
    · rfl
  | cons l ls ih =>
    intro info
    rw [List.foldl_cons, ih, keyVals_cons]
    rcases hsl : splitLine l with _ | ⟨k, v⟩
    · simp [parse_cpuinfo_line, hsl]
    · simp only
      by_cases hk : k = "model name"
      · subst hk
        simp only [parse_cpuinfo_line, hsl]
        by_cases hz : info.cpu_model_name = "" <;>
          by_cases hv : v = "" <;>
            simp [hz, hv, firstNonempty]
      · simp only [parse_cpuinfo_line, hsl, hk, if_neg hk]
        split_ifs <;> simp_all

lemma cpuinfo_model (lines : List String) : ∀ info : extended_info_t,
    (lines.foldl parse_cpuinfo_line info).cpu_model
      = if info.cpu_model = 0
        then firstNonzero ((keyVals "model" lines).map (fun v => u32ofInt (atoi v)))
        else info.cpu_model := by
  induction lines with
  | nil =>
    intro info
    simp only [List.foldl_nil, keyVals, List.filterMap_nil, List.map_nil, firstNonzero]
    split_ifs with h <;> omega
  | cons l ls ih =>
    intro info
    rw [List.foldl_cons, ih, keyVals_cons]
    rcases hsl : splitLine l with _ | ⟨k, v⟩
    · simp [parse_cpuinfo_line, hsl]
    · simp only
      by_cases hk : k = "model"
      · subst hk
        simp only [parse_cpuinfo_line, hsl]
        by_cases hz : info.cpu_model = 0 <;>
          by_cases hv : u32ofInt (atoi v) = 0 <;>
            simp [hz, hv, firstNonzero]
      · simp only [parse_cpuinfo_line, hsl, hk, if_neg hk]
        split_ifs <;> simp_all

lemma cpuinfo_microcode (lines : List String) : ∀ info : extended_info_t,
    (lines.foldl parse_cpuinfo_line info).cpu_microcode
      = if info.cpu_microcode = 0
        then firstNonzero ((keyVals "microcode" lines).map (fun v => u32ofInt (strtol16 v)))
        else info.cpu_microcode := by
  induction lines with
  | nil =>
    intro info
    simp only [List.foldl_nil, keyVals, List.filterMap_nil, List.map_nil, firstNonzero]
    split_ifs with h <;> omega
  | cons l ls ih =>
    intro info
    rw [List.foldl_cons, ih, keyVals_cons]
    rcases hsl : splitLine l with _ | ⟨k, v⟩
    · simp [parse_cpuinfo_line, hsl]
    · simp only
      by_cases hk : k = "microcode"
      · subst hk
        simp only [parse_cpuinfo_line, hsl]
        by_cases hz : info.cpu_microcode = 0 <;>
          by_cases hv : u32ofInt (strtol16 v) = 0 <;>
            simp [hz, hv, firstNonzero]
      · simp only [parse_cpuinfo_line, hsl, hk, if_neg hk]
        split_ifs <;> simp_all

lemma cpuinfo_stepping (lines : List String) : ∀ info : extended_info_t,
    (lines.foldl parse_cpuinfo_line info).cpu_stepping
      = if info.cpu_stepping = 0
        then firstNonzero ((keyVals "stepping" lines).map (fun v => u32ofInt (atoi v)))
        else info.cpu_stepping := by
  induction lines with
  | nil =>
    intro info
    simp only [List.foldl_nil, keyVals, List.filterMap_nil, List.map_nil, firstNonzero]
    split_ifs with h <;> omega
  | cons l ls ih =>
    intro info
    rw [List.foldl_cons, ih, keyVals_cons]
    rcases hsl : splitLine l with _ | ⟨k, v⟩
    · simp [parse_cpuinfo_line, hsl]
    · simp only
      by_cases hk : k = "stepping"
      · subst hk
        simp only [parse_cpuinfo_line, hsl]
        by_cases hz : info.cpu_stepping = 0 <;>
          by_cases hv : u32ofInt (atoi v) = 0 <;>
            simp [hz, hv, firstNonzero]
      · simp only [parse_cpuinfo_line, hsl, hk, if_neg hk]
        split_ifs <;> simp_all

/-- C8 counterexample: with two `stepping` lines whose first value is 0,
the build captures the SECOND line's value — the later duplicate line is
not ignored, because the capture guard tests the accumulated value for
zero, not whether the key was already seen. -/
theorem cpuinfo_c8_counterexample :
    (parse_cpuinfo ["stepping\t: 0", "stepping\t: 5"]).cpu_stepping = 5
    ∧ (parse_cpuinfo ["stepping\t: 0", "stepping\t: 5"]).cpu_stepping ≠ 0 :=
  ⟨rfl, by decide⟩

/-- C8 (amended): during the system-info build, `processor` lines increment
the logical-core count, `physical id` yields the running maximum of index
plus one, and `cpu cores`, `model`, `microcode` (parsed as hexadecimal) and
`stepping` each capture the first occurrence whose parsed value is
non-zero (`model name`: the first occurrence with a non-empty value);
lines for an already-captured key are ignored only once a non-zero
(non-empty) value has been captured. -/
theorem cpuinfo_accumulation_c8 (lines : List String) :
    (parse_cpuinfo lines).cpu_logical_cores = (keyVals "processor" lines).length
    ∧ (parse_cpuinfo lines).cpu_sockets
        = (keyVals "physical id" lines).foldl
            (fun m v => max m ((u32ofInt (atoi v) + 1) % 2 ^ 32)) 0
    ∧ (parse_cpuinfo lines).cpu_physical_per_socket
        = firstNonzero ((keyVals "cpu cores" lines).map (fun v => u32ofInt (atoi v)))
    ∧ (parse_cpuinfo lines).cpu_model_name = firstNonempty (keyVals "model name" lines)
    ∧ (parse_cpuinfo lines).cpu_model
        = firstNonzero ((keyVals "model" lines).map (fun v => u32ofInt (atoi v)))
    ∧ (parse_cpuinfo lines).cpu_microcode
        = firstNonzero ((keyVals "microcode" lines).map (fun v => u32ofInt (strtol16 v)))
    ∧ (parse_cpuinfo lines).cpu_stepping
        = firstNonzero ((keyVals "stepping" lines).map (fun v => u32ofInt (atoi v))) := by
  unfold parse_cpuinfo
  refine ⟨?_, ?_, ?_, ?_, ?_, ?_, ?_⟩
  · simpa using cpuinfo_logical_cores lines {}
  · simpa using cpuinfo_sockets lines {}
  · simpa using cpuinfo_physical_per_socket lines {}
  · simpa using cpuinfo_model_name lines {}
  · simpa using cpuinfo_model lines {}
  · simpa using cpuinfo_microcode lines {}
  · simpa using cpuinfo_stepping lines {}

lemma dropPre_eq_some {p t r : List Char} :
    dropPre p t = some r ↔ t = p ++ r := by
  induction p generalizing t with
  | nil =>
    simp [dropPre, eq_comm]
  | cons q qs ih =>
    rcases t with _ | ⟨c, cs⟩
    · simp [dropPre]
    · by_cases hc : c = q
      · subst hc
        simp [dropPre, ih]
      · simp [dropPre, hc, Ne.symm hc]

/-- Walking two lists in lockstep reaches a position where both have a
character and the characters differ. -/
def listsClash : List Char → List Char → Bool
  | q :: qs, p :: ps => if p = q then listsClash qs ps else true
  | _, _ => false

lemma dropPre_eq_none_of_clash {q p : List Char} (h : listsClash q p = true)
    (cs : List Char) : dropPre q (p ++ cs) = none := by
  induction q generalizing p with
  | nil => simp [listsClash] at h
  | cons c qs ih =>
    rcases p with _ | ⟨d, ps⟩
    · simp [listsClash] at h
    · by_cases hdc : d = c
      · subst hdc
        simp only [listsClash, if_pos rfl] at h
        simp [dropPre, ih h]
      · simp [dropPre, hdc]

lemma append_ne_of_not_prefix {p l : List Char} (h : ¬ p <+: l) (cs : List Char) :
    p ++ cs ≠ l := fun he => h ⟨cs, he⟩

lemma parseFlagValue_eq_some {tok name v : String} :
    parseFlagValue tok name = some v ↔ tok.data = flagPre name ++ v.data := by
  unfold parseFlagValue
  rw [Option.map_eq_some']
  constructor
  · rintro ⟨cs, hcs, rfl⟩
    exact dropPre_eq_some.mp hcs
  · intro he
    exact ⟨v.data, dropPre_eq_some.mpr he, by cases v; rfl⟩

lemma parseFlagValue_excl (n2 : String) {tok n1 : String} {cs : List Char}
    (ht : tok.data = flagPre n1 ++ cs)
    (hc : listsClash (flagPre n2) (flagPre n1) = true) :
    parseFlagValue tok n2 = none := by
  unfold parseFlagValue
  rw [ht, dropPre_eq_none_of_clash hc]
  rfl

lemma tok_ne_of_append {tok n1 b : String} {cs : List Char}
    (ht : tok.data = flagPre n1 ++ cs)
    (hp : ¬ flagPre n1 <+: b.data) : tok ≠ b := by
  intro he
  rw [he] at ht
  exact append_ne_of_not_prefix hp cs ht.symm

lemma parseBoolFlag_excl (n2 : String) {tok n1 : String} {cs : List Char}
    (ht : tok.data = flagPre n1 ++ cs)
    (hc : listsClash (flagPre n2) (flagPre n1) = true)
    (hp : ¬ flagPre n1 <+: ("--" ++ n2).data) :
    parseBoolFlag tok n2 = none := by
  unfold parseBoolFlag
  rw [if_neg (tok_ne_of_append ht hp), parseFlagValue_excl n2 ht hc]
  rfl

lemma parseBoolFlag_of_value {tok n v : String}
    (hv : parseFlagValue tok n = some v)
    (hp : ¬ flagPre n <+: ("--" ++ n).data) :
    parseBoolFlag tok n = some (parseBoolVal v) := by
  unfold parseBoolFlag
  rw [if_neg (tok_ne_of_append (parseFlagValue_eq_some.mp hv) hp), hv]
  rfl

lemma matchToken_fields {tok : String} {f : Flags → Flags}
    (h : matchToken tok = some f) (fl : Flags) :
    (f fl).dataset = (parseFlagValue tok "dataset").getD fl.dataset
    ∧ (f fl).block_size = (parseFlagValue tok "block_size").getD fl.block_size
    ∧ (f fl).threads
        = ((parseFlagValue tok "threads").map (fun v => i32ofInt (atoi v))).getD fl.threads
    ∧ (f fl).node
        = ((parseFlagValue tok "node").map (fun v => i32ofInt (atoi v))).getD fl.node
    ∧ (f fl).full_time = (parseBoolFlag tok "full_time").getD fl.full_time
    ∧ (f fl).queue_size
        = ((parseFlagValue tok "queue_size").map (fun v => i32ofInt (atoi v))).getD fl.queue_size
    ∧ (f fl).batch_size
        = ((parseFlagValue tok "batch_size").map (fun v => i32ofInt (atoi v))).getD fl.batch_size
    ∧ (f fl).no_hw = (parseBoolFlag tok "no_hw").getD fl.no_hw
    ∧ (f fl).in_mem = (parseFlagValue tok "in_mem").getD fl.in_mem
    ∧ (f fl).out_mem = (parseFlagValue tok "out_mem").getD fl.out_mem
    ∧ (f fl).canned_part = (parseFlagValue tok "canned_part").getD fl.canned_part
    ∧ (f fl).canned_regen = (parseBoolFlag tok "canned_regen").getD fl.canned_regen := by
  unfold matchToken at h
  rcases h1 : parseFlagValue tok "dataset" with _ | v1 <;> rw [h1] at h
  case some =>
    simp only [Option.map_some', Option.some_orElse, Option.some.injEq] at h
    subst h
    have ht := parseFlagValue_eq_some.mp h1
    simp [h1,
      parseFlagValue_excl "block_size" ht (by decide),
      parseFlagValue_excl "threads" ht (by decide),
      parseFlagValue_excl "node" ht (by decide),
      parseBoolFlag_excl "full_time" ht (by decide) (by decide),
      parseFlagValue_excl "queue_size" ht (by decide),
      parseFlagValue_excl "batch_size" ht (by decide),
      parseBoolFlag_excl "no_hw" ht (by decide) (by decide),
      parseFlagValue_excl "in_mem" ht (by decide),
      parseFlagValue_excl "out_mem" ht (by decide),
      parseFlagValue_excl "canned_part" ht (by decide),
      parseBoolFlag_excl "canned_regen" ht (by decide) (by decide)]
  simp only [Option.map_none', Option.none_orElse] at h
  rcases h2 : parseFlagValue tok "block_size" with _ | v2 <;> rw [h2] at h
  case some =>
    simp only [Option.map_some', Option.some_orElse, Option.some.injEq] at h
    subst h
    have ht := parseFlagValue_eq_some.mp h2
    simp [h1, h2,
      parseFlagValue_excl "threads" ht (by decide),
      parseFlagValue_excl "node" ht (by decide),
      parseBoolFlag_excl "full_time" ht (by decide) (by decide),
      parseFlagValue_excl "queue_size" ht (by decide),
      parseFlagValue_excl "batch_size" ht (by decide),
      parseBoolFlag_excl "no_hw" ht (by decide) (by decide),
      parseFlagValue_excl "in_mem" ht (by decide),
      parseFlagValue_excl "out_mem" ht (by decide),
      parseFlagValue_excl "canned_part" ht (by decide),
      parseBoolFlag_excl "canned_regen" ht (by decide) (by decide)]
  simp only [Option.map_none', Option.none_orElse] at h
  rcases h3 : parseFlagValue tok "threads" with _ | v3 <;> rw [h3] at h
  case some =>
    simp only [Option.map_some', Option.some_orElse, Option.some.injEq] at h
    subst h
    have ht := parseFlagValue_eq_some.mp h3
    simp [h1, h2, h3,
      parseFlagValue_excl "node" ht (by decide),
      parseBoolFlag_excl "full_time" ht (by decide) (by decide),
      parseFlagValue_excl "queue_size" ht (by decide),
      parseFlagValue_excl "batch_size" ht (by decide),
      parseBoolFlag_excl "no_hw" ht (by decide) (by decide),
      parseFlagValue_excl "in_mem" ht (by decide),
      parseFlagValue_excl "out_mem" ht (by decide),
      parseFlagValue_excl "canned_part" ht (by decide),
      parseBoolFlag_excl "canned_regen" ht (by decide) (by decide)]
  simp only [Option.map_none', Option.none_orElse] at h
  rcases h4 : parseFlagValue tok "node" with _ | v4 <;> rw [h4] at h
  case some =>
    simp only [Option.map_some', Option.some_orElse, Option.some.injEq] at h
    subst h
    have ht := parseFlagValue_eq_some.mp h4
    simp [h1, h2, h3, h4,
      parseBoolFlag_excl "full_time" ht (by decide) (by decide),
      parseFlagValue_excl "queue_size" ht (by decide),
      parseFlagValue_excl "batch_size" ht (by decide),
      parseBoolFlag_excl "no_hw" ht (by decide) (by decide),
      parseFlagValue_excl "in_mem" ht (by decide),
      parseFlagValue_excl "out_mem" ht (by decide),
      parseFlagValue_excl "canned_part" ht (by decide),
      parseBoolFlag_excl "canned_regen" ht (by decide) (by decide)]
  simp only [Option.map_none', Option.none_orElse] at h
  rcases h5 : parseBoolFlag tok "full_time" with _ | b5 <;> rw [h5] at h
  case some =>
    simp only [Option.map_some', Option.some_orElse, Option.some.injEq] at h
    subst h
    by_cases hbare : tok = "--" ++ "full_time"
    · have hb : b5 = true := by
        unfold parseBoolFlag at h5
        rw [if_pos hbare] at h5
        exact (Option.some.injEq _ _ ▸ h5).symm
      subst hb
      subst hbare
      exact ⟨rfl, rfl, rfl, rfl, rfl, rfl, rfl, rfl, rfl, rfl, rfl, rfl⟩
    · have h5v := h5
      unfold parseBoolFlag at h5v
      rw [if_neg hbare] at h5v
      rcases Option.map_eq_some'.mp h5v with ⟨v, hv, hbv⟩
      have ht := parseFlagValue_eq_some.mp hv
      simp [h1, h2, h3, h4, h5,
        parseFlagValue_excl "queue_size" ht (by decide),
        parseFlagValue_excl "batch_size" ht (by decide),
        parseBoolFlag_excl "no_hw" ht (by decide) (by decide),
        parseFlagValue_excl "in_mem" ht (by decide),
        parseFlagValue_excl "out_mem" ht (by decide),
        parseFlagValue_excl "canned_part" ht (by decide),
        parseBoolFlag_excl "canned_regen" ht (by decide) (by decide)]
  simp only [Option.map_none', Option.none_orElse] at h
  rcases h6 : parseFlagValue tok "queue_size" with _ | v6 <;> rw [h6] at h
  case some =>
    simp only [Option.map_some', Option.some_orElse, Option.some.injEq] at h
    subst h
    have ht := parseFlagValue_eq_some.mp h6
    simp [h1, h2, h3, h4, h5, h6,
      parseFlagValue_excl "batch_size" ht (by decide),
      parseBoolFlag_excl "no_hw" ht (by decide) (by decide),
      parseFlagValue_excl "in_mem" ht (by decide),
      parseFlagValue_excl "out_mem" ht (by decide),
      parseFlagValue_excl "canned_part" ht (by decide),
      parseBoolFlag_excl "canned_regen" ht (by decide) (by decide)]
  simp only [Option.map_none', Option.none_orElse] at h
  rcases h7 : parseFlagValue tok "batch_size" with _ | v7 <;> rw [h7] at h
  case some =>
    simp only [Option.map_some', Option.some_orElse, Option.some.injEq] at h
    subst h
    have ht := parseFlagValue_eq_some.mp h7
    simp [h1, h2, h3, h4, h5, h6, h7,
      parseBoolFlag_excl "no_hw" ht (by decide) (by decide),
      parseFlagValue_excl "in_mem" ht (by decide),
      parseFlagValue_excl "out_mem" ht (by decide),
      parseFlagValue_excl "canned_part" ht (by decide),
      parseBoolFlag_excl "canned_regen" ht (by decide) (by decide)]
  simp only [Option.map_none', Option.none_orElse] at h
  rcases h8 : parseBoolFlag tok "no_hw" with _ | b8 <;> rw [h8] at h
  case some =>
    simp only [Option.map_some', Option.some_orElse, Option.some.injEq] at h
    subst h
    by_cases hbare : tok = "--" ++ "no_hw"
    · have hb : b8 = true := by
        unfold parseBoolFlag at h8
        rw [if_pos hbare] at h8
        exact (Option.some.injEq _ _ ▸ h8).symm
      subst hb
      subst hbare
      exact ⟨rfl, rfl, rfl, rfl, rfl, rfl, rfl, rfl, rfl, rfl, rfl, rfl⟩
    · have h8v := h8
      unfold parseBoolFlag at h8v
      rw [if_neg hbare] at h8v
      rcases Option.map_eq_some'.mp h8v with ⟨v, hv, hbv⟩
      have ht := parseFlagValue_eq_some.mp hv
      simp [h1, h2, h3, h4, h5, h6, h7, h8,
        parseFlagValue_excl "in_mem" ht (by decide),
        parseFlagValue_excl "out_mem" ht (by decide),
        parseFlagValue_excl "canned_part" ht (by decide),
        parseBoolFlag_excl "canned_regen" ht (by decide) (by decide)]
  simp only [Option.map_none', Option.none_orElse] at h
  rcases h9 : parseFlagValue tok "in_mem" with _ | v9 <;> rw [h9] at h
  case some =>
    simp only [Option.map_some', Option.some_orElse, Option.some.injEq] at h
    subst h
    have ht := parseFlagValue_eq_some.mp h9
    simp [h1, h2, h3, h4, h5, h6, h7, h8, h9,
      parseFlagValue_excl "out_mem" ht (by decide),
      parseFlagValue_excl "canned_part" ht (by decide),
      parseBoolFlag_excl "canned_regen" ht (by decide) (by decide)]
  simp only [Option.map_none', Option.none_orElse] at h
  rcases h10 : parseFlagValue tok "out_mem" with _ | v10 <;> rw [h10] at h
  case some =>
    simp only [Option.map_some', Option.some_orElse, Option.some.injEq] at h
    subst h
    have ht := parseFlagValue_eq_some.mp h10
    simp [h1, h2, h3, h4, h5, h6, h7, h8, h9, h10,
      parseFlagValue_excl "canned_part" ht (by decide),
      parseBoolFlag_excl "canned_regen" ht (by decide) (by decide)]
  simp only [Option.map_none', Option.none_orElse] at h
  rcases h11 : parseFlagValue tok "canned_part" with _ | v11 <;> rw [h11] at h
  case some =>
    simp only [Option.map_some', Option.some_orElse, Option.some.injEq] at h
    subst h
    have ht := parseFlagValue_eq_some.mp h11
    simp [h1, h2, h3, h4, h5, h6, h7, h8, h9, h10, h11,
      parseBoolFlag_excl "canned_regen" ht (by decide) (by decide)]
  simp only [Option.map_none', Option.none_orElse] at h
  rcases h12 : parseBoolFlag tok "canned_regen" with _ | b12 <;> rw [h12] at h
  case some =>
    simp only [Option.map_some', Option.some_orElse, Option.some.injEq] at h
    subst h
    by_cases hbare : tok = "--" ++ "canned_regen"
    · have hb : b12 = true := by
        unfold parseBoolFlag at h12
        rw [if_pos hbare] at h12
        exact (Option.some.injEq _ _ ▸ h12).symm
      subst hb
      subst hbare
      exact ⟨rfl, rfl, rfl, rfl, rfl, rfl, rfl, rfl, rfl, rfl, rfl, rfl⟩
    · have h12v := h12
      unfold parseBoolFlag at h12v
      rw [if_neg hbare] at h12v
      rcases Option.map_eq_some'.mp h12v with ⟨v, hv, hbv⟩
      simp [h1, h2, h3, h4, h5, h6, h7, h8, h9, h10, h11, h12]
  simp only [Option.map_none'] at h
  exact absurd h (by simp)

lemma matchToken_eq_none {tok : String} (h : matchToken tok = none) :
    parseFlagValue tok "dataset" = none
    ∧ parseFlagValue tok "block_size" = none
    ∧ parseFlagValue tok "threads" = none
    ∧ parseFlagValue tok "node" = none
    ∧ parseBoolFlag tok "full_time" = none
    ∧ parseFlagValue tok "queue_size" = none
    ∧ parseFlagValue tok "batch_size" = none
    ∧ parseBoolFlag tok "no_hw" = none
    ∧ parseFlagValue tok "in_mem" = none
    ∧ parseFlagValue tok "out_mem" = none
    ∧ parseFlagValue tok "canned_part" = none
    ∧ parseBoolFlag tok "canned_regen" = none := by
  unfold matchToken at h
  rcases h1 : parseFlagValue tok "dataset" with _ | v1 <;> rw [h1] at h
  case some =>
    simp only [Option.map_some', Option.some_orElse] at h
    exact Option.noConfusion h
  simp only [Option.map_none', Option.none_orElse] at h
  rcases h2 : parseFlagValue tok "block_size" with _ | v2 <;> rw [h2] at h
  case some =>
    simp only [Option.map_some', Option.some_orElse] at h
    exact Option.noConfusion h
  simp only [Option.map_none', Option.none_orElse] at h
  rcases h3 : parseFlagValue tok "threads" with _ | v3 <;> rw [h3] at h
  case some =>
    simp only [Option.map_some', Option.some_orElse] at h
    exact Option.noConfusion h
  simp only [Option.map_none', Option.none_orElse] at h
  rcases h4 : parseFlagValue tok "node" with _ | v4 <;> rw [h4] at h
  case some =>
    simp only [Option.map_some', Option.some_orElse] at h
    exact Option.noConfusion h
  simp only [Option.map_none', Option.none_orElse] at h
  rcases h5 : parseBoolFlag tok "full_time" with _ | b5 <;> rw [h5] at h
  case some =>
    simp only [Option.map_some', Option.some_orElse] at h
    exact Option.noConfusion h
  simp only [Option.map_none', Option.none_orElse] at h
  rcases h6 : parseFlagValue tok "queue_size" with _ | v6 <;> rw [h6] at h
  case some =>
    simp only [Option.map_some', Option.some_orElse] at h
    exact Option.noConfusion h
  simp only [Option.map_none', Option.none_orElse] at h
  rcases h7 : parseFlagValue tok "batch_size" with _ | v7 <;> rw [h7] at h
  case some =>
    simp only [Option.map_some', Option.some_orElse] at h
    exact Option.noConfusion h
  simp only [Option.map_none', Option.none_orElse] at h
  rcases h8 : parseBoolFlag tok "no_hw" with _ | b8 <;> rw [h8] at h
  case some =>
    simp only [Option.map_some', Option.some_orElse] at h
    exact Option.noConfusion h
  simp only [Option.map_none', Option.none_orElse] at h
  rcases h9 : parseFlagValue tok "in_mem" with _ | v9 <;> rw [h9] at h
  case some =>
    simp only [Option.map_some', Option.some_orElse] at h
    exact Option.noConfusion h
  simp only [Option.map_none', Option.none_orElse] at h
  rcases h10 : parseFlagValue tok "out_mem" with _ | v10 <;> rw [h10] at h
  case some =>
    simp only [Option.map_some', Option.some_orElse] at h
    exact Option.noConfusion h
  simp only [Option.map_none', Option.none_orElse] at h
  rcases h11 : parseFlagValue tok "canned_part" with _ | v11 <;> rw [h11] at h
  case some =>
    simp only [Option.map_some', Option.some_orElse] at h
    exact Option.noConfusion h
  simp only [Option.map_none', Option.none_orElse] at h
  rcases h12 : parseBoolFlag tok "canned_regen" with _ | b12 <;> rw [h12] at h
  case some =>
    simp only [Option.map_some', Option.some_orElse] at h
    exact Option.noConfusion h
  simp only [Option.map_none', Option.none_orElse] at h
  exact ⟨rfl, rfl, rfl, rfl, rfl, rfl, rfl, rfl, rfl, rfl, rfl, rfl⟩

lemma parse_local_snd (fl : Flags) (args : List String) :
    (parse_local fl args).2 = args.filter (fun t => (matchToken t).isNone) := by
  induction args generalizing fl with
  | nil => simp [parse_local]
  | cons tok rest ih =>
    rw [List.filter_cons]
    rcases hm : matchToken tok with _ | f
    · simp only [parse_local, tryParseToken, hm, Option.map_none', hm, Option.isNone_none,
        if_pos]
      simp [ih]
    · simp only [parse_local, tryParseToken, hm, Option.map_some']
      simp [ih]

lemma parse_local_fst (fl : Flags) (args : List String) :
    (parse_local fl args).1
      = args.foldl (fun acc t => ((matchToken t).map (fun g => g acc)).getD acc) fl := by
  induction args generalizing fl with
  | nil => simp [parse_local]
  | cons tok rest ih =>
    rw [List.foldl_cons]
    rcases hm : matchToken tok with _ | f
    · simp only [parse_local, tryParseToken, hm, Option.map_none', Option.getD_none]
      simp [ih]
    · simp only [parse_local, tryParseToken, hm, Option.map_some', Option.getD_some]
      simp [ih]

lemma getLastD_cons {α : Type _} (v d : α) (l : List α) :
    (v :: l).getLast?.getD d = l.getLast?.getD v := by
  induction l generalizing v d with
  | nil => rfl
  | cons a l2 ih =>
    rw [List.getLast?_cons_cons]
    exact (ih a d).trans (ih a v).symm

lemma parse_local_field {β : Type _} (g : Flags → β) (fv : String → Option β)
    (hup : ∀ (tok : String) (f : Flags → Flags), matchToken tok = some f →
        ∀ fl : Flags, g (f fl) = (fv tok).getD (g fl))
    (hnone : ∀ tok : String, matchToken tok = none → fv tok = none)
    (fl : Flags) (args : List String) :
    g (parse_local fl args).1 = ((args.filterMap fv).getLast?).getD (g fl) := by
  induction args generalizing fl with
  | nil => simp [parse_local]
  | cons tok rest ih =>
    rw [List.filterMap_cons]
    rcases hm : matchToken tok with _ | f
    · rw [hnone tok hm]
      simp only [parse_local, tryParseToken, hm, Option.map_none']
      simp [ih]
    · simp only [parse_local, tryParseToken, hm, Option.map_some']
      have hstep := hup tok f hm fl
      rcases hv : fv tok with _ | v
      · rw [hv] at hstep
        simp only [Option.getD_none] at hstep
        simp [ih, hstep]
      · rw [hv] at hstep
        simp only [Option.getD_some] at hstep
        simp only [ih, hstep]
        rw [getLastD_cons]

/-- C4: splicing removes exactly the recognized tokens — after
`parse_local` the remaining argument list is exactly the unrecognized
tokens, in their original relative order — and the store is the left fold
of the per-token updates, so each of the twelve flags ends at the parsed
value of its last occurrence (its prior value when it never occurs);
concretely for argv = ["prog", "--block_size=4K", "--no_hw", "--foo"] the
remaining argv is ["prog", "--foo"], the stored block size resolves to
4096, and `no_hw` is true. -/
theorem parse_local_c4 (fl : Flags) (args : List String) :
    (parse_local fl args).2 = args.filter (fun t => (matchToken t).isNone)
    ∧ (parse_local fl args).1
        = args.foldl (fun acc t => ((matchToken t).map (fun g => g acc)).getD acc) fl
    ∧ (parse_local fl args).1.dataset
        = ((args.filterMap (fun t => parseFlagValue t "dataset")).getLast?).getD fl.dataset
    ∧ (parse_local fl args).1.block_size
        = ((args.filterMap (fun t => parseFlagValue t "block_size")).getLast?).getD
            fl.block_size
    ∧ (parse_local fl args).1.threads
        = ((args.filterMap
              (fun t => (parseFlagValue t "threads").map
                (fun v => i32ofInt (atoi v)))).getLast?).getD fl.threads
    ∧ (parse_local fl args).1.node
        = ((args.filterMap
              (fun t => (parseFlagValue t "node").map
                (fun v => i32ofInt (atoi v)))).getLast?).getD fl.node
    ∧ (parse_local fl args).1.full_time
        = ((args.filterMap (fun t => parseBoolFlag t "full_time")).getLast?).getD
            fl.full_time
    ∧ (parse_local fl args).1.queue_size
        = ((args.filterMap
              (fun t => (parseFlagValue t "queue_size").map
                (fun v => i32ofInt (atoi v)))).getLast?).getD fl.queue_size
    ∧ (parse_local fl args).1.batch_size
        = ((args.filterMap
              (fun t => (parseFlagValue t "batch_size").map
                (fun v => i32ofInt (atoi v)))).getLast?).getD fl.batch_size
    ∧ (parse_local fl args).1.no_hw
        = ((args.filterMap (fun t => parseBoolFlag t "no_hw")).getLast?).getD fl.no_hw
    ∧ (parse_local fl args).1.in_mem
        = ((args.filterMap (fun t => parseFlagValue t "in_mem")).getLast?).getD fl.in_mem
    ∧ (parse_local fl args).1.out_mem
        = ((args.filterMap (fun t => parseFlagValue t "out_mem")).getLast?).getD fl.out_mem
    ∧ (parse_local fl args).1.canned_part
        = ((args.filterMap (fun t => parseFlagValue t "canned_part")).getLast?).getD
            fl.canned_part
    ∧ (parse_local fl args).1.canned_regen
        = ((args.filterMap (fun t => parseBoolFlag t "canned_regen")).getLast?).getD
            fl.canned_regen
    ∧ (parse_local_argv {} ["prog", "--block_size=4K", "--no_hw", "--foo"]).2
        = ["prog", "--foo"]
    ∧ (parse_local_argv {} ["prog", "--block_size=4K", "--no_hw", "--foo"]).1.no_hw = true
    ∧ get_block_size
        (parse_local_argv {} ["prog", "--block_size=4K", "--no_hw", "--foo"]).1.block_size
        = .ok 4096 := by
  refine ⟨parse_local_snd fl args, parse_local_fst fl args,
    ?_, ?_, ?_, ?_, ?_, ?_, ?_, ?_, ?_, ?_, ?_, ?_, rfl, rfl, rfl⟩
  · exact parse_local_field (fun x => x.dataset) (fun t => parseFlagValue t "dataset")
      (fun tok f hm fl2 => (matchToken_fields hm fl2).1)
      (fun tok hm => (matchToken_eq_none hm).1) fl args
  · exact parse_local_field (fun x => x.block_size) (fun t => parseFlagValue t "block_size")
      (fun tok f hm fl2 => (matchToken_fields hm fl2).2.1)
      (fun tok hm => (matchToken_eq_none hm).2.1) fl args
  · exact parse_local_field (fun x => x.threads)
      (fun t => (parseFlagValue t "threads").map (fun v => i32ofInt (atoi v)))
      (fun tok f hm fl2 => (matchToken_fields hm fl2).2.2.1)
      (fun tok hm => by simp [(matchToken_eq_none hm).2.2.1]) fl args
  · exact parse_local_field (fun x => x.node)
      (fun t => (parseFlagValue t "node").map (fun v => i32ofInt (atoi v)))
      (fun tok f hm fl2 => (matchToken_fields hm fl2).2.2.2.1)
      (fun tok hm => by simp [(matchToken_eq_none hm).2.2.2.1]) fl args
  · exact parse_local_field (fun x => x.full_time) (fun t => parseBoolFlag t "full_time")
      (fun tok f hm fl2 => (matchToken_fields hm fl2).2.2.2.2.1)
      (fun tok hm => (matchToken_eq_none hm).2.2.2.2.1) fl args
  · exact parse_local_field (fun x => x.queue_size)
      (fun t => (parseFlagValue t "queue_size").map (fun v => i32ofInt (atoi v)))
      (fun tok f hm fl2 => (matchToken_fields hm fl2).2.2.2.2.2.1)
      (fun tok hm => by simp [(matchToken_eq_none hm).2.2.2.2.2.1]) fl args
  · exact parse_local_field (fun x => x.batch_size)
      (fun t => (parseFlagValue t "batch_size").map (fun v => i32ofInt (atoi v)))
      (fun tok f hm fl2 => (matchToken_fields hm fl2).2.2.2.2.2.2.1)
      (fun tok hm => by simp [(matchToken_eq_none hm).2.2.2.2.2.2.1]) fl args
  · exact parse_local_field (fun x => x.no_hw) (fun t => parseBoolFlag t "no_hw")
      (fun tok f hm fl2 => (matchToken_fields hm fl2).2.2.2.2.2.2.2.1)
      (fun tok hm => (matchToken_eq_none hm).2.2.2.2.2.2.2.1) fl args
  · exact parse_local_field (fun x => x.in_mem) (fun t => parseFlagValue t "in_mem")
      (fun tok f hm fl2 => (matchToken_fields hm fl2).2.2.2.2.2.2.2.2.1)
      (fun tok hm => (matchToken_eq_none hm).2.2.2.2.2.2.2.2.1) fl args
  · exact parse_local_field (fun x => x.out_mem) (fun t => parseFlagValue t "out_mem")
      (fun tok f hm fl2 => (matchToken_fields hm fl2).2.2.2.2.2.2.2.2.2.1)
      (fun tok hm => (matchToken_eq_none hm).2.2.2.2.2.2.2.2.2.1) fl args
  · exact parse_local_field (fun x => x.canned_part)
      (fun t => parseFlagValue t "canned_part")
      (fun tok f hm fl2 => (matchToken_fields hm fl2).2.2.2.2.2.2.2.2.2.2.1)
      (fun tok hm => (matchToken_eq_none hm).2.2.2.2.2.2.2.2.2.2.1) fl args
  · exact parse_local_field (fun x => x.canned_regen)
      (fun t => parseBoolFlag t "canned_regen")
      (fun tok f hm fl2 => (matchToken_fields hm fl2).2.2.2.2.2.2.2.2.2.2.2)
      (fun tok hm => (matchToken_eq_none hm).2.2.2.2.2.2.2.2.2.2.2) fl args

/-- C7: the entry sequencer splices the domain flags out of argv, hands the
remaining arguments to the framework, exits with code 1 when the framework
reports unrecognized arguments, and otherwise builds the system info, runs
the hardware readiness handshake unless `no_hw` is set (a handshake failure
escapes as the fatal error), invokes every registered callback in
registration order, runs the measurement loop and shuts down, returning the
framework's exit status 0. -/
theorem main_sequencer_c7 (env : MainEnv) :
    (reportUnrecognizedArguments
        (env.frameworkInitialize (parse_local_argv {} env.argv).2) = true →
      main_run env = .ok ([MainEvent.spliceArgs, MainEvent.frameworkInitialize,
        MainEvent.checkArgs], 1))
    ∧ (reportUnrecognizedArguments
        (env.frameworkInitialize (parse_local_argv {} env.argv).2) = false →
       (parse_local_argv {} env.argv).1.no_hw = true →
      main_run env = .ok ([MainEvent.spliceArgs, MainEvent.frameworkInitialize,
        MainEvent.checkArgs, MainEvent.sysInfo]
        ++ env.registry.map MainEvent.callback
        ++ [MainEvent.runBenchmarks, MainEvent.shutdownStep], 0))
    ∧ (reportUnrecognizedArguments
        (env.frameworkInitialize (parse_local_argv {} env.argv).2) = false →
       (parse_local_argv {} env.argv).1.no_hw = false →
       hwAllOk env.hw = true →
      main_run env = .ok ([MainEvent.spliceArgs, MainEvent.frameworkInitialize,
        MainEvent.checkArgs, MainEvent.sysInfo, MainEvent.hwInit]
        ++ env.registry.map MainEvent.callback
        ++ [MainEvent.runBenchmarks, MainEvent.shutdownStep], 0))
    ∧ (reportUnrecognizedArguments
        (env.frameworkInitialize (parse_local_argv {} env.argv).2) = false →
       (parse_local_argv {} env.argv).1.no_hw = false →
       hwAllOk env.hw = false →
      ∃ m, main_run env = .error m) := by
  refine ⟨?_, ?_, ?_, ?_⟩
  · intro h1
    simp [main_run, h1]
  · intro h1 h2
    simp [main_run, h1, h2, drain_registry_map_append]
  · intro h1 h2 h3
    have hi := init_hw_of_allOk env.hw h3
    simp [main_run, h1, h2, hi, drain_registry_map_append]
  · intro h1 h2 h3
    obtain ⟨m, hm⟩ := init_hw_of_failure env.hw h3
    exact ⟨m, by simp [main_run, h1, h2, hm]⟩

/-- Witness for C7: a concrete environment whose argv keeps an unrecognized
token, so the run stops at the check with exit code 1. -/
theorem main_sequencer_c7_witness :
    main_run
      { argv := ["prog", "--foo"], frameworkInitialize := fun a => a,
        sys := ⟨"", "", [], []⟩, hw := ⟨0, 0, 0, 0, 0⟩, registry := [0, 1] }
      = .ok ([MainEvent.spliceArgs, MainEvent.frameworkInitialize,
          MainEvent.checkArgs], 1) :=
  (main_sequencer_c7
    { argv := ["prog", "--foo"], frameworkInitialize := fun a => a,
      sys := ⟨"", "", [], []⟩, hw := ⟨0, 0, 0, 0, 0⟩, registry := [0, 1] }).1 rfl

end QplBench
